import Mathlib

/-!
# Verification of the kb-pipeline backend

Shallow embedding of the backend's core subsystems and proofs of the
spec's claims about them:

* `src/backend/src/pipeline/ingest.py` — document loading, PDF reading,
  text-unit composition (chunking);
* `src/backend/src/llm/config.py`, `client.py`, `state.py` — LLM
  configuration, client factory, and the shared LLM state holder;
* `src/backend/src/api/pipeline_routes.py` together with
  `src/backend/src/pipeline/core.py` — the background pipeline job and
  its status/progress trace.

Python strings are modelled as `List Char` where character-indexed
slicing matters (the chunker) and as `String` elsewhere; machine floats
that only ever hold small decimal literals (job progress) are modelled
as `ℚ`; fallible operations return `Except`/`Option`.
-/

namespace KbPipeline

/-! ## Text-unit composition (`compose_text_units`, ingest.py lines 138-191)

The Python loop

```
start = 0
while start < len(text):
    chunk = text[start : start + max_chars]
    start += max_chars
```

takes successive windows of `max_chars` characters.  Because
`text[start : start + m]` is the first `m` characters of the suffix
beginning at `start`, and `start` advances by exactly `m`, the loop is
the recursion "emit `take m`, recurse on `drop m`".  We embed it with
explicit fuel; `chunkAux` exits when the guard `start < len(text)`
fails (the remaining suffix is empty) or when the fuel runs out, and
`text.length` fuel is shown sufficient whenever `m > 0`. -/

def chunkAux (m : Nat) : Nat → List Char → List (List Char)
  | _, [] => []
  | 0, _ :: _ => []
  | fuel + 1, c :: cs => (c :: cs).take m :: chunkAux m fuel ((c :: cs).drop m)

/-- The list of chunks the `while` loop of `compose_text_units` emits for
one document text, for a positive `max_chars`. -/
def chunksOfText (text : List Char) (m : Nat) : List (List Char) :=
  chunkAux m text.length text

/-- One row of the text-unit DataFrame (ingest.py lines 178-186). -/
structure TURow where
  id : String
  document_id : String
  text : List Char
  order : Nat
  document_uri : String
  document_title : String
  deriving Repr, DecidableEq

/-- One row of the documents DataFrame, as consumed by
`compose_text_units` (fields `id`, `text`, `uri`, `title`). -/
structure DocRow where
  id : String
  text : List Char
  uri : String
  title : String
  deriving Repr, DecidableEq

/-- The rows `compose_text_units` appends for a single document, when the
global text-unit counter starts at `tu0`: chunk `i` gets id `tu_<tu0+i>`
and `order = i`. -/
def docChunkRows (d : DocRow) (tu0 : Nat) (chunks : List (List Char)) : List TURow :=
  chunks.enum.map (fun ic =>
    { id := "tu_" ++ toString (tu0 + ic.1)
      document_id := d.id
      text := ic.2
      order := ic.1
      document_uri := d.uri
      document_title := d.title })

/-- The document loop of `compose_text_units`, threading the global
`tu_id` counter across documents in input order. -/
def composeAux (m : Nat) : List DocRow → Nat → List TURow
  | [], _ => []
  | d :: ds, tu0 =>
      let rs := docChunkRows d tu0 (chunksOfText d.text m)
      rs ++ composeAux m ds (tu0 + rs.length)

/-- `compose_text_units(docs_df, max_chars)` (ingest.py lines 138-191). -/
def compose_text_units (docs : List DocRow) (m : Nat) : List TURow :=
  composeAux m docs 0

/-- The rows of the composed DataFrame belonging to one document id. -/
def unitsForDoc (rows : List TURow) (docId : String) : List TURow :=
  rows.filter (fun r => r.document_id == docId)

/-! ### The raw chunking loop counter (ingest.py 169-187)

To reason about termination of the `while start < len(text)` loop for an
arbitrary (possibly non-positive) `max_chars`, we model the loop counter
directly: Python integers are unbounded, `start` begins at `0` and each
iteration executes `start += max_chars`. -/

/-- One execution of `start += max_chars`. -/
def composeLoopNext (maxChars start : Int) : Int := start + maxChars

/-- Value of `start` after `n` loop iterations. -/
def composeLoopStart (maxChars : Int) : Nat → Int
  | 0 => 0
  | n + 1 => composeLoopNext maxChars (composeLoopStart maxChars n)

/-- The loop guard `start < len(text)`. -/
def composeLoopGuard (textLen start : Int) : Bool := start < textLen

/-! ## PDF reader (`_read_pdf`, ingest.py lines 31-38)

A PDF is a list of pages; `page.extract_text()` may return text or
`None` (`Option String`).  The Python loop appends
`page_text = page.extract_text() or ""` to `text_chunks` only when
`page_text` is non-empty, then joins the chunks with a newline. -/

/-- `page.extract_text() or ""`. -/
def pageText (extracted : Option String) : String := extracted.getD ""

/-- One iteration of the page loop of `_read_pdf`: append the page's
text to `text_chunks` only when it is non-empty. -/
def pdfStep (acc : List String) (p : Option String) : List String :=
  if pageText p = "" then acc else acc ++ [pageText p]

/-- The `text_chunks` accumulation loop of `_read_pdf`. -/
def read_pdf_chunks (pages : List (Option String)) : List String :=
  pages.foldl pdfStep []

/-- `_read_pdf` (ingest.py lines 31-38). -/
def read_pdf (pages : List (Option String)) : String :=
  String.intercalate "\n" (read_pdf_chunks pages)

/-- Modelled from the claim's words (spec §4.3 as read by the claim):
every page contributes its extracted text to the newline join, a page
with no extractable text contributing the empty string, so that it still
occupies a position in the concatenation. -/
def read_pdf_claimed (pages : List (Option String)) : String :=
  String.intercalate "\n" (pages.map pageText)

/-! ## Document loader (`load_documents`, ingest.py lines 65-136)

The filesystem is abstracted to the directory-existence flag tested by
`os.path.isdir` and the list of files `os.walk` yields, each with the
outcome of its format reader (`_read_file` either raises — `Except.error`
with the exception message — or returns the extracted text) and its
`os.stat`/`os.path.getsize` metadata. -/

def SUPPORTED_EXTENSIONS : List String := [".txt", ".pdf", ".docx"]

/-- `str.lower()` for the ASCII strings the code compares, character by
character. -/
def pyLower (s : String) : String :=
  String.mk (s.toList.map Char.toLower)

/-- `not text.strip()`: the text is empty or whitespace-only. -/
def strBlank (s : String) : Bool :=
  s.toList.all (fun c => c.isWhitespace)

/-- Index of the last `'.'` in a file name, if any. -/
def lastDotIdx (l : List Char) : Option Nat :=
  (l.enum.filterMap (fun p => if p.2 = '.' then some p.1 else none)).getLast?

/-- The extension part of `os.path.splitext`: the suffix from the last
dot on, provided some earlier character of the name is not a dot
(leading dots do not start an extension). -/
def splitextExt (name : String) : String :=
  match lastDotIdx name.toList with
  | none => ""
  | some i =>
      if (name.toList.take i).any (fun c => c != '.') then
        String.mk (name.toList.drop i)
      else ""

/-- The root part of `os.path.splitext`: the name minus its extension. -/
def splitextRoot (name : String) : String :=
  String.mk (name.toList.take (name.toList.length - (splitextExt name).toList.length))

/-- `_infer_title_from_filename` (ingest.py lines 59-62): the extension
is stripped and underscores/hyphens become spaces. -/
def infer_title_from_filename (name : String) : String :=
  (splitextRoot name).map (fun c => if c = '_' then ' ' else if c = '-' then ' ' else c)

/-- One file yielded by `os.walk`: its base name, the outcome of reading
it, and its stat metadata. -/
structure FileEntry where
  name : String
  readResult : Except String String
  size_bytes : Nat
  ctime : Option Nat
  deriving Repr

/-- The input directory as `load_documents` observes it. -/
structure InputDir where
  path : String
  isDir : Bool
  files : List FileEntry
  deriving Repr

/-- One row of the documents DataFrame (ingest.py lines 116-128). -/
structure DocRecord where
  id : String
  uri : String
  title : String
  text : String
  creation_date : Option Nat
  source_type : String
  ext : String
  size_bytes : Nat
  root_dir : String
  deriving Repr, DecidableEq

def isSupportedExt (e : String) : Bool := SUPPORTED_EXTENSIONS.contains e

/-- The file loop of `load_documents`, threading the `doc_id` counter;
unsupported extensions, reader failures, and blank texts are skipped
without touching the counter. -/
def loadAux (rootDir : String) : List FileEntry → Nat → List DocRecord
  | [], _ => []
  | f :: fs, docId =>
      if isSupportedExt (pyLower (splitextExt f.name)) then
        match f.readResult with
        | .error _ => loadAux rootDir fs docId
        | .ok text =>
            if strBlank text then loadAux rootDir fs docId
            else
              { id := "doc_" ++ toString docId
                uri := rootDir ++ "/" ++ f.name
                title := infer_title_from_filename f.name
                text := text
                creation_date := f.ctime
                source_type := "file"
                ext := pyLower (splitextExt f.name)
                size_bytes := f.size_bytes
                root_dir := rootDir } :: loadAux rootDir fs (docId + 1)
      else loadAux rootDir fs docId

/-- `load_documents` (ingest.py lines 65-136). -/
def load_documents (d : InputDir) : Except String (List DocRecord) :=
  if d.isDir then .ok (loadAux d.path d.files 0)
  else .error ("Input directory does not exist or is not a directory: " ++ d.path)

/-- A file `load_documents` skips: unsupported extension, reader
failure, or empty/whitespace-only text. -/
def skippedFile (f : FileEntry) : Bool :=
  if isSupportedExt (pyLower (splitextExt f.name)) then
    match f.readResult with
    | .error _ => true
    | .ok text => strBlank text
  else true

/-! ## LLM configuration, client factory and shared state
(`llm/config.py`, `llm/client.py`, `llm/state.py`) -/

inductive LLMMode where
  | ollama
  | custom
  deriving Repr, DecidableEq

structure LLMConfig where
  mode : LLMMode
  base_url : Option String
  model_name : Option String
  deriving Repr, DecidableEq

/-- Python truthiness of an optional string (`None` and `""` are falsy). -/
def truthy : Option String → Bool
  | none => false
  | some s => !(s == "")

/-- `base_url.rstrip("/")`. -/
def rstripSlash (s : String) : String :=
  String.mk ((s.toList.reverse.dropWhile (fun c => c == '/')).reverse)

inductive ClientKind where
  | ollama
  | custom
  deriving Repr, DecidableEq

/-- A constructed client, recording which variant and the constructor
arguments it was built from. -/
structure LLMClient where
  kind : ClientKind
  base_url : String
  model : Option String
  deriving Repr, DecidableEq

/-- `create_llm_client` (client.py lines 139-156); raising `ValueError`
is modelled as `Except.error` with the exception message. -/
def create_llm_client (c : LLMConfig) : Except String LLMClient :=
  match c.mode with
  | .ollama =>
      if truthy c.base_url = false then
        .error "OLLAMA mode selected but no base_url set."
      else if truthy c.model_name = false then
        .error "OLLAMA mode selected but no model_name set."
      else .ok ⟨.ollama, rstripSlash (c.base_url.getD ""), c.model_name⟩
  | .custom =>
      if truthy c.base_url = false then
        .error "CUSTOM LLM mode selected but no base_url set."
      else .ok ⟨.custom, rstripSlash (c.base_url.getD ""), c.model_name⟩

/-- Whether client construction from `c` succeeds. -/
def createSucceeds (c : LLMConfig) : Bool :=
  match create_llm_client c with
  | .ok _ => true
  | .error _ => false

/-- The fields `LLMState` guards with its lock (state.py lines 22-26). -/
structure LLMStateModel where
  config : LLMConfig
  client : Option LLMClient
  error : Option String
  deriving Repr, DecidableEq

/-- `get_config` (state.py 28-31): the deep copy has value semantics. -/
def get_config (s : LLMStateModel) : LLMConfig := s.config

/-- The snapshot `get_status` returns (state.py 43-52). -/
structure LLMStatus where
  mode : LLMMode
  base_url : Option String
  model_name : Option String
  client_initialized : Bool
  last_error : Option String
  deriving Repr, DecidableEq

def get_status (s : LLMStateModel) : LLMStatus :=
  ⟨s.config.mode, s.config.base_url, s.config.model_name, s.client.isSome, s.error⟩

/-- The single locked block of `set_config` (state.py 56-59): store the
new config, drop the client, drop the error. -/
def set_config_locked (s : LLMStateModel) (cfg : LLMConfig) : LLMStateModel :=
  { s with config := cfg, client := none, error := none }

/-- The locked failure block of `refresh_client` (state.py 79-81). -/
def refresh_install_err (s : LLMStateModel) (msg : String) : LLMStateModel :=
  { s with client := none, error := some msg }

/-- The locked success block of `refresh_client` (state.py 84-86). -/
def refresh_install_ok (s : LLMStateModel) (client : LLMClient) : LLMStateModel :=
  { s with client := some client, error := none }

/-- `refresh_client` (state.py 65-93) run without interference: read the
config under the lock, construct outside the lock, install under the
lock; a construction failure is converted to the error field and
`false`, never re-raised. -/
def refresh_client (s : LLMStateModel) : LLMStateModel × Bool :=
  let config := get_config s
  match create_llm_client config with
  | .error e => (refresh_install_err s e, false)
  | .ok client => (refresh_install_ok s client, true)

/-- `set_config` (state.py 54-63) run without interference. -/
def set_config (s : LLMStateModel) (cfg : LLMConfig) (initialize_client : Bool) :
    LLMStateModel × Bool :=
  let s1 := set_config_locked s cfg
  if initialize_client then refresh_client s1 else (s1, true)

/-- The environment variables `config.py` consults. -/
structure OsEnv where
  LLM_MODE : Option String
  LLM_BASE_URL : Option String
  LLM_MODEL_NAME : Option String
  OLLAMA_HOST : Option String
  deriving Repr, DecidableEq

/-- `discover_ollama_endpoint` (config.py 37-76). -/
def discover_ollama_endpoint (env : OsEnv) : Option String :=
  if truthy env.OLLAMA_HOST then
    let host := env.OLLAMA_HOST.getD ""
    if host.startsWith "http://" || host.startsWith "https://" then some host
    else some ("http://" ++ host ++ ":11434")
  else some "http://127.0.0.1:11434"

/-- `default_llm_config` (config.py 79-103). -/
def default_llm_config (env : OsEnv) : LLMConfig :=
  let mode_str := pyLower (env.LLM_MODE.getD "ollama")
  let mode := if mode_str = "ollama" then LLMMode.ollama
    else if mode_str = "custom" then LLMMode.custom
    else LLMMode.ollama
  let base_url := env.LLM_BASE_URL
  let model_name := env.LLM_MODEL_NAME
  match mode with
  | .ollama =>
      ⟨.ollama, if truthy base_url then base_url else discover_ollama_endpoint env,
        model_name⟩
  | .custom => ⟨.custom, base_url, model_name⟩

/-- The LLM configuration `_run_pipeline_job` actually hands to
`build_knowledge_base` (pipeline_routes.py line 61): it calls
`default_llm_config()` and never consults the process-wide LLM state. -/
def executor_llm_config (env : OsEnv) (_state : LLMStateModel) : LLMConfig :=
  default_llm_config env

/-- The interleaving in which a `set_config(newCfg, initialize_client=False)`
runs between `refresh_client`'s locked config read and its locked client
install.  Each step below is one critical section of the code, atomic
under the `RLock`; the client construction between them runs outside the
lock (state.py 65-93), so this schedule is realizable. -/
def race_set_config_during_refresh (s0 : LLMStateModel) (newCfg : LLMConfig) :
    LLMStateModel :=
  let readCfg := get_config s0
  let s1 := set_config_locked s0 newCfg
  match create_llm_client readCfg with
  | .error e => refresh_install_err s1 e
  | .ok client => refresh_install_ok s1 client

/-! ## Pipeline jobs (`api/pipeline_routes.py`, `pipeline/core.py`)

The job record is mutated in place by the submission handler, the
background task and the progress callback; we model the sequence of
observable snapshots of the registry entry, one per mutation block.
Progress values are small decimal literals, modelled exactly in `ℚ`;
`time.time()` results are opaque parameters. -/

inductive PipelineStatusEnum where
  | pending
  | running
  | failed
  | completed
  deriving Repr, DecidableEq

structure PipelineStatus where
  job_id : String
  status : PipelineStatusEnum
  stage : Option String
  progress : ℚ
  message : Option String
  started_at : ℚ
  finished_at : Option ℚ
  deriving Repr, DecidableEq

/-- The fixed `(stage, progress, message)` sequence `build_knowledge_base`
reports through the status callback (core.py lines 27-63). -/
def pipelineCallbacks (input_dir method : String) (docsEmpty : Bool) (nDocs nUnits : Nat) :
    List (String × ℚ × String) :=
  ("load_documents", 0.1, "Loading documents from " ++ input_dir) ::
  (if docsEmpty then
      ("load_documents", 0.15, "No documents found; pipeline will complete with empty KB.")
    else ("load_documents", 0.2, "Loaded " ++ toString nDocs ++ " documents")) ::
  ("compose_text_units", 0.25, "Composing text units") ::
  ("compose_text_units", 0.35, "Composed " ++ toString nUnits ++ " text units") ::
  ("extract_graph", 0.5, "Extracting entities/relationships (method=" ++ method ++ ")") ::
  ("detect_communities", 0.7, "Detecting communities") ::
  ("summarize_communities", 0.85, "Generating community reports") ::
  ("embed_and_store", 0.95, "Generating embeddings and storing in vector/graph DB") ::
  ("finalizing", 0.99, "Finalizing pipeline") :: []

/-- `_update_job_status` (pipeline_routes.py 97-107). -/
def updateJobStatus (j : PipelineStatus) (u : String × ℚ × String) : PipelineStatus :=
  { j with stage := some u.1, progress := u.2.1, message := some u.2.2 }

/-- Registry snapshots produced by a sequence of callback updates. -/
def applyCallbacks (j : PipelineStatus) : List (String × ℚ × String) → List PipelineStatus
  | [] => []
  | u :: us => updateJobStatus j u :: applyCallbacks (updateJobStatus j u) us

/-- The job as the submission handler creates it (pipeline_routes.py 118-127). -/
def initialJob (jid : String) (t0 : ℚ) : PipelineStatus :=
  { job_id := jid
    status := .pending
    stage := some "queued"
    progress := 0
    message := some "Job queued"
    started_at := t0
    finished_at := none }

/-- Lines 48-53: the background task marks the job running before any work. -/
def runningJob (j : PipelineStatus) (ip : String) : PipelineStatus :=
  { j with
    status := .running
    stage := some "initializing"
    message := some ("Starting pipeline for input_path=" ++ ip)
    progress := 0.01 }

/-- Lines 57-59: entering the llm_init stage. -/
def llmInitJob (j : PipelineStatus) : PipelineStatus :=
  { j with stage := some "llm_init", message := some "Initializing LLM client" }

/-- Lines 65-68: entering the running_pipeline stage. -/
def pipelineStartJob (j : PipelineStatus) : PipelineStatus :=
  { j with
    stage := some "running_pipeline"
    message := some "Running build_knowledge_base (stub)"
    progress := 0.1 }

/-- Lines 80-86: successful completion. -/
def completedJob (j : PipelineStatus) (tf : ℚ) : PipelineStatus :=
  { j with
    status := .completed
    stage := some "completed"
    progress := 1
    message := some "Pipeline completed successfully"
    finished_at := some tf }

/-- Lines 88-94: the except-branch; the exception message `msg` is
recorded with the `"Pipeline failed: "` prelude of the f-string. -/
def failedJob (j : PipelineStatus) (msg : String) (tf : ℚ) : PipelineStatus :=
  { j with
    status := .failed
    stage := some "error"
    message := some ("Pipeline failed: " ++ msg)
    finished_at := some tf }

/-- How one background run unfolds: it completes, it raises while
creating the LLM client (before `build_knowledge_base`), or a stage
raises after `k` callback reports. -/
inductive RunScenario where
  | ok (docsEmpty : Bool) (nDocs nUnits : Nat)
  | failInit (msg : String)
  | failStage (k : Nat) (docsEmpty : Bool) (nDocs nUnits : Nat) (msg : String)

/-- The registry entry as the except/success epilogue reads it back. -/
def lastJob (j : PipelineStatus) (snaps : List PipelineStatus) : PipelineStatus :=
  snaps.getLastD j

/-- All observable snapshots of one job's registry entry, in order, for
one run scenario (`_run_pipeline_job` composed with
`build_knowledge_base`'s callback sequence). -/
def jobTrace (jid ip method : String) (t0 tf : ℚ) : RunScenario → List PipelineStatus
  | .ok de nd nu =>
      let s0 := initialJob jid t0
      let s1 := runningJob s0 ip
      let s2 := llmInitJob s1
      let s3 := pipelineStartJob s2
      let mids := applyCallbacks s3 (pipelineCallbacks ip method de nd nu)
      s0 :: s1 :: s2 :: s3 :: (mids ++ [completedJob (lastJob s3 mids) tf])
  | .failInit msg =>
      let s0 := initialJob jid t0
      let s1 := runningJob s0 ip
      let s2 := llmInitJob s1
      [s0, s1, s2, failedJob s2 msg tf]
  | .failStage k de nd nu msg =>
      let s0 := initialJob jid t0
      let s1 := runningJob s0 ip
      let s2 := llmInitJob s1
      let s3 := pipelineStartJob s2
      let mids := applyCallbacks s3 ((pipelineCallbacks ip method de nd nu).take k)
      s0 :: s1 :: s2 :: s3 :: (mids ++ [failedJob (lastJob s3 mids) msg tf])

/-- How many `running` snapshots a scenario's trace contains. -/
def runningCount : RunScenario → Nat
  | .ok _ _ _ => 12
  | .failInit _ => 2
  | .failStage k _ _ _ _ => 3 + min k 9

/-- The terminal status a scenario's trace ends in. -/
def finalStatus : RunScenario → PipelineStatusEnum
  | .ok _ _ _ => .completed
  | .failInit _ => .failed
  | .failStage _ _ _ _ _ => .failed

/-! ### Chunking lemmas -/

theorem chunkAux_join (m : Nat) (hm : 0 < m) :
    ∀ (fuel : Nat) (t : List Char), t.length ≤ fuel →
      (chunkAux m fuel t).flatten = t := by
  intro fuel
  induction fuel with
  | zero =>
      intro t ht
      cases t with
      | nil => simp [chunkAux]
      | cons c cs => simp at ht
  | succ f ih =>
      intro t ht
      cases t with
      | nil => simp [chunkAux]
      | cons c cs =>
          have hdrop : ((c :: cs).drop m).length ≤ f := by
            have hlen : ((c :: cs).drop m).length = (c :: cs).length - m :=
              List.length_drop m (c :: cs)
            simp only [List.length_cons] at hlen ht
            omega
          simp only [chunkAux, List.flatten]
          rw [ih _ hdrop]
          exact List.take_append_drop m (c :: cs)

theorem ceil_div_step (len m : Nat) (hlen : 1 ≤ len) (hm : 0 < m) :
    (len + m - 1) / m = ((len - m) + m - 1) / m + 1 := by
  rcases le_or_lt len m with h | h
  · have h0 : len - m = 0 := by omega
    rw [h0]
    have h1 : (0 + m - 1) / m = 0 := Nat.div_eq_of_lt (by omega)
    rw [h1]
    exact Nat.div_eq_of_lt_le (by omega) (by omega)
  · have h2 : len + m - 1 = ((len - m) + m - 1) + m := by omega
    rw [h2, Nat.add_div_right _ hm]

theorem chunkAux_length (m : Nat) (hm : 0 < m) :
    ∀ (fuel : Nat) (t : List Char), t.length ≤ fuel →
      (chunkAux m fuel t).length = (t.length + m - 1) / m := by
  intro fuel
  induction fuel with
  | zero =>
      intro t ht
      cases t with
      | nil =>
          simp only [chunkAux, List.length_nil]
          exact (Nat.div_eq_of_lt (by omega)).symm
      | cons c cs => simp at ht
  | succ f ih =>
      intro t ht
      cases t with
      | nil =>
          simp only [chunkAux, List.length_nil]
          exact (Nat.div_eq_of_lt (by omega)).symm
      | cons c cs =>
          have hdrop : ((c :: cs).drop m).length ≤ f := by
            have hlen : ((c :: cs).drop m).length = (c :: cs).length - m :=
              List.length_drop m (c :: cs)
            simp only [List.length_cons] at hlen ht
            omega
          simp only [chunkAux, List.length_cons]
          rw [ih _ hdrop, List.length_drop]
          simp only [List.length_cons]
          rw [ceil_div_step (cs.length + 1) m (by omega) hm]

theorem chunkAux_fuel_irrelevant (m : Nat) (hm : 0 < m) :
    ∀ (f1 : Nat) (t : List Char) (f2 : Nat), t.length ≤ f1 → t.length ≤ f2 →
      chunkAux m f1 t = chunkAux m f2 t := by
  intro f1
  induction f1 with
  | zero =>
      intro t f2 h1 h2
      cases t with
      | nil => cases f2 <;> simp [chunkAux]
      | cons c cs => simp at h1
  | succ f ih =>
      intro t f2 h1 h2
      cases t with
      | nil => cases f2 <;> simp [chunkAux]
      | cons c cs =>
          cases f2 with
          | zero => simp at h2
          | succ g =>
              have hdrop : ((c :: cs).drop m).length = (c :: cs).length - m :=
                List.length_drop m (c :: cs)
              simp only [List.length_cons] at hdrop h1 h2
              simp only [chunkAux]
              rw [ih ((c :: cs).drop m) g (by omega) (by omega)]

/-- Chunks joined in order give back the text (for positive `max_chars`). -/
theorem chunksOfText_flatten (t : List Char) (m : Nat) (hm : 0 < m) :
    (chunksOfText t m).flatten = t :=
  chunkAux_join m hm t.length t le_rfl

/-- Chunk count is the ceiling of `len / max_chars`. -/
theorem chunksOfText_length (t : List Char) (m : Nat) (hm : 0 < m) :
    (chunksOfText t m).length = (t.length + m - 1) / m :=
  chunkAux_length m hm t.length t le_rfl

/-! ### Per-document rows of `compose_text_units` -/

theorem docChunkRows_document_id (d : DocRow) (tu0 : Nat) (chunks : List (List Char)) :
    ∀ r ∈ docChunkRows d tu0 chunks, r.document_id = d.id := by
  intro r hr
  simp only [docChunkRows, List.mem_map] at hr
  obtain ⟨ic, _, rfl⟩ := hr
  rfl

theorem unitsForDoc_append (a b : List TURow) (x : String) :
    unitsForDoc (a ++ b) x = unitsForDoc a x ++ unitsForDoc b x := by
  simp [unitsForDoc]

theorem unitsForDoc_docChunkRows_self (d : DocRow) (tu0 : Nat) (chunks : List (List Char)) :
    unitsForDoc (docChunkRows d tu0 chunks) d.id = docChunkRows d tu0 chunks := by
  apply List.filter_eq_self.mpr
  intro r hr
  exact beq_iff_eq.mpr (docChunkRows_document_id d tu0 chunks r hr)

theorem unitsForDoc_docChunkRows_ne (d : DocRow) (tu0 : Nat) (chunks : List (List Char))
    (x : String) (hx : d.id ≠ x) :
    unitsForDoc (docChunkRows d tu0 chunks) x = [] := by
  apply List.filter_eq_nil_iff.mpr
  intro r hr
  have := docChunkRows_document_id d tu0 chunks r hr
  simp [this, hx]

theorem unitsForDoc_composeAux_not_mem (m : Nat) (x : String) :
    ∀ (ds : List DocRow) (tu0 : Nat), x ∉ ds.map DocRow.id →
      unitsForDoc (composeAux m ds tu0) x = [] := by
  intro ds
  induction ds with
  | nil => intro tu0 _; rfl
  | cons d rest ih =>
      intro tu0 hx
      simp only [List.map_cons, List.mem_cons, not_or] at hx
      simp only [composeAux, unitsForDoc_append]
      rw [unitsForDoc_docChunkRows_ne d tu0 _ x (fun h => hx.1 h.symm),
        ih _ hx.2]
      rfl

theorem unitsForDoc_composeAux (m : Nat) (d : DocRow) :
    ∀ (ds : List DocRow) (tu0 : Nat), (ds.map DocRow.id).Nodup → d ∈ ds →
      ∃ t0, unitsForDoc (composeAux m ds tu0) d.id =
        docChunkRows d t0 (chunksOfText d.text m) := by
  intro ds
  induction ds with
  | nil => intro tu0 _ hmem; exact absurd hmem (List.not_mem_nil d)
  | cons d' rest ih =>
      intro tu0 hnd hmem
      simp only [List.map_cons, List.nodup_cons] at hnd
      simp only [composeAux, unitsForDoc_append]
      rcases List.mem_cons.mp hmem with rfl | hmem'
      · refine ⟨tu0, ?_⟩
        rw [unitsForDoc_docChunkRows_self,
          unitsForDoc_composeAux_not_mem m d.id rest _ hnd.1, List.append_nil]
      · have hne : d'.id ≠ d.id := by
          intro h
          exact hnd.1 (h ▸ List.mem_map_of_mem DocRow.id hmem')
        rw [unitsForDoc_docChunkRows_ne d' tu0 _ d.id hne, List.nil_append]
        exact ih _ hnd.2 hmem'

theorem docChunkRows_map_text (d : DocRow) (tu0 : Nat) (chunks : List (List Char)) :
    (docChunkRows d tu0 chunks).map TURow.text = chunks := by
  simp only [docChunkRows, List.map_map]
  have : (TURow.text ∘ fun ic : Nat × List Char =>
      ({ id := "tu_" ++ toString (tu0 + ic.1), document_id := d.id, text := ic.2,
         order := ic.1, document_uri := d.uri, document_title := d.title } : TURow)) =
      Prod.snd := rfl
  rw [this, List.enum_map_snd]

theorem docChunkRows_map_order (d : DocRow) (tu0 : Nat) (chunks : List (List Char)) :
    (docChunkRows d tu0 chunks).map TURow.order = List.range chunks.length := by
  simp only [docChunkRows, List.map_map]
  have : (TURow.order ∘ fun ic : Nat × List Char =>
      ({ id := "tu_" ++ toString (tu0 + ic.1), document_id := d.id, text := ic.2,
         order := ic.1, document_uri := d.uri, document_title := d.title } : TURow)) =
      Prod.fst := rfl
  rw [this, List.enum_map_fst]

theorem docChunkRows_length (d : DocRow) (tu0 : Nat) (chunks : List (List Char)) :
    (docChunkRows d tu0 chunks).length = chunks.length := by
  simp [docChunkRows]

theorem composeLoopStart_nonpos (maxChars : Int) (hmc : maxChars ≤ 0) :
    ∀ n, composeLoopStart maxChars n ≤ 0 := by
  intro n
  induction n with
  | zero => simp [composeLoopStart]
  | succ k ih =>
      simp only [composeLoopStart, composeLoopNext]
      omega

/-- **C1.** Chunk losslessness of `compose_text_units`: for any document
in the input (document ids being pairwise distinct, as `load_documents`
guarantees with its `doc_<n>` numbering) and any `max_chars > 0`, the
rows produced for that document carry `order` values `0, 1, …, k-1` in
list order (so list order is ascending `order`), their texts concatenate
to the document's original text, and their number is
`(len + max_chars - 1) / max_chars`, the ceiling of `len / max_chars`
(`0` for empty text), with no possibility of raising (the embedding is a
total function). -/
theorem C1_chunk_losslessness (docs : List DocRow) (m : Nat) (d : DocRow)
    (hm : 0 < m) (hd : d ∈ docs) (hids : (docs.map DocRow.id).Nodup) :
    ((unitsForDoc (compose_text_units docs m) d.id).map TURow.text).flatten = d.text ∧
    (unitsForDoc (compose_text_units docs m) d.id).length = (d.text.length + m - 1) / m ∧
    (unitsForDoc (compose_text_units docs m) d.id).map TURow.order =
      List.range ((d.text.length + m - 1) / m) ∧
    (d.text = [] → unitsForDoc (compose_text_units docs m) d.id = []) := by
  obtain ⟨t0, ht0⟩ := unitsForDoc_composeAux m d docs 0 hids hd
  have hflat : ((unitsForDoc (compose_text_units docs m) d.id).map TURow.text).flatten
      = d.text := by
    rw [compose_text_units] at *
    rw [ht0, docChunkRows_map_text, chunksOfText_flatten d.text m hm]
  have hlen : (unitsForDoc (compose_text_units docs m) d.id).length
      = (d.text.length + m - 1) / m := by
    rw [compose_text_units] at *
    rw [ht0, docChunkRows_length, chunksOfText_length d.text m hm]
  have horder : (unitsForDoc (compose_text_units docs m) d.id).map TURow.order
      = List.range ((d.text.length + m - 1) / m) := by
    rw [compose_text_units] at *
    rw [ht0, docChunkRows_map_order, chunksOfText_length d.text m hm]
  refine ⟨hflat, hlen, horder, ?_⟩
  intro hempty
  have : (unitsForDoc (compose_text_units docs m) d.id).length = 0 := by
    rw [hlen, hempty]
    simp only [List.length_nil]
    exact Nat.div_eq_of_lt (by omega)
  exact List.length_eq_zero.mp this

theorem C1_chunk_losslessness_witness :
    ((unitsForDoc (compose_text_units
        [⟨"doc_0", ['a', 'b', 'c'], "/tmp/a.txt", "a"⟩] 2) "doc_0").map TURow.text).flatten
      = ['a', 'b', 'c'] ∧
    (unitsForDoc (compose_text_units
        [⟨"doc_0", ['a', 'b', 'c'], "/tmp/a.txt", "a"⟩] 2) "doc_0").length = 2 :=
  ⟨(C1_chunk_losslessness [⟨"doc_0", ['a', 'b', 'c'], "/tmp/a.txt", "a"⟩] 2
      ⟨"doc_0", ['a', 'b', 'c'], "/tmp/a.txt", "a"⟩
      (by decide) (by simp) (by simp)).1,
   (C1_chunk_losslessness [⟨"doc_0", ['a', 'b', 'c'], "/tmp/a.txt", "a"⟩] 2
      ⟨"doc_0", ['a', 'b', 'c'], "/tmp/a.txt", "a"⟩
      (by decide) (by simp) (by simp)).2.1⟩

/-- **C10.** Termination of the chunking loop: with `max_chars > 0` the
loop finishes within `len(text)` iterations (any fuel of at least
`len(text)` computes the same, already-converged chunk list), while for
`max_chars ≤ 0` and non-empty text the guard `start < len(text)` holds
after every number of iterations — `start` never increases above `0` —
so the `while` loop never exits: the `max_chars > 0` precondition is
necessary and sufficient for totality. -/
theorem C10_chunk_loop_termination (m fuel : Nat) (t : List Char)
    (mc textLen : Int) (n : Nat)
    (hm : 0 < m) (hfuel : t.length ≤ fuel)
    (hmc : mc ≤ 0) (hlen : 0 < textLen) :
    chunkAux m fuel t = chunksOfText t m ∧
    composeLoopGuard textLen (composeLoopStart mc n) = true := by
  constructor
  · exact chunkAux_fuel_irrelevant m hm fuel t t.length hfuel le_rfl
  · have h := composeLoopStart_nonpos mc hmc n
    simp only [composeLoopGuard, decide_eq_true_eq]
    omega

theorem C10_chunk_loop_termination_witness :
    chunkAux 2 7 ['a', 'b', 'c'] = chunksOfText ['a', 'b', 'c'] 2 ∧
    composeLoopGuard 5 (composeLoopStart (-3) 4) = true :=
  C10_chunk_loop_termination 2 7 ['a', 'b', 'c'] (-3) 5 4
    (by decide) (by decide) (by decide) (by decide)

/-! ### PDF reader lemmas -/

theorem pdfStep_acc (acc : List String) (p : Option String) :
    pdfStep acc p = acc ++ pdfStep [] p := by
  by_cases h : pageText p = "" <;> simp [pdfStep, h]

theorem foldl_pdfStep_acc :
    ∀ (pages : List (Option String)) (acc : List String),
      pages.foldl pdfStep acc = acc ++ pages.foldl pdfStep [] := by
  intro pages
  induction pages with
  | nil => intro acc; simp
  | cons p ps ih =>
      intro acc
      simp only [List.foldl_cons]
      rw [ih (pdfStep acc p), ih (pdfStep [] p), pdfStep_acc acc p, List.append_assoc]

theorem read_pdf_chunks_eq (pages : List (Option String)) :
    read_pdf_chunks pages = (pages.map pageText).filter (fun t => !(t == "")) := by
  induction pages with
  | nil => rfl
  | cons p ps ih =>
      simp only [read_pdf_chunks, List.foldl_cons, List.map_cons, List.filter_cons]
      rw [foldl_pdfStep_acc ps (pdfStep [] p)]
      by_cases h : pageText p = ""
      · simp [pdfStep, h, read_pdf_chunks] at ih ⊢
        exact ih
      · simp [pdfStep, h, read_pdf_chunks] at ih ⊢
        exact ih

/-- **C8 (amended).** The text `_read_pdf` produces is the newline join
of the *non-empty* per-page extracted texts: a page with no extractable
text (or whose extracted text is empty) is omitted entirely and does not
occupy a position in the join. -/
theorem C8_read_pdf_joins_nonempty_pages (pages : List (Option String)) :
    read_pdf pages
      = String.intercalate "\n" ((pages.map pageText).filter (fun t => !(t == ""))) := by
  rw [read_pdf, read_pdf_chunks_eq]

/-- **C8 counterexample.** For pages `["a", None, "b"]` the code yields
`"a\nb"`, while the claim's per-page newline join (the empty page keeping
its position) yields `"a\n\nb"`: the claim is false as stated. -/
theorem C8_counterexample :
    read_pdf [some "a", none, some "b"] = "a\nb" ∧
    read_pdf_claimed [some "a", none, some "b"] = "a\n\nb" ∧
    read_pdf [some "a", none, some "b"] ≠ read_pdf_claimed [some "a", none, some "b"] := by
  decide

/-! ### Document loader lemmas -/

theorem loadAux_skip (rd : String) (f : FileEntry) (hf : skippedFile f = true) :
    ∀ (fs1 fs2 : List FileEntry) (n : Nat),
      loadAux rd (fs1 ++ f :: fs2) n = loadAux rd (fs1 ++ fs2) n := by
  intro fs1
  induction fs1 with
  | nil =>
      intro fs2 n
      simp only [List.nil_append]
      by_cases hsupp : isSupportedExt (pyLower (splitextExt f.name)) = true
      · cases hr : f.readResult with
        | error e => simp [loadAux, hsupp, hr]
        | ok text =>
            simp only [skippedFile, hsupp, if_true, hr] at hf
            simp [loadAux, hsupp, hr, hf]
      · simp [loadAux, hsupp]
  | cons g fs1' ih =>
      intro fs2 n
      simp only [List.cons_append, loadAux]
      split
      · split
        · exact ih fs2 n
        · split
          · exact ih fs2 n
          · exact congrArg _ (ih fs2 (n + 1))
      · exact ih fs2 n

/-- **C7.** `load_documents` fails with the configuration error exactly
when the input is not a directory; on a directory it is total: a file
with an unsupported extension, a file whose reader raises, or a file
whose text strips to empty is skipped, leaving the result exactly as if
the file were absent (the scan of the remaining files proceeds), and an
empty result is returned as a normal `ok []`, not an error. -/
theorem C7_load_documents_errors (d : InputDir) (p : String)
    (fs1 fs2 : List FileEntry) (f : FileEntry) (hskip : skippedFile f = true) :
    ((∃ e, load_documents d = Except.error e) ↔ d.isDir = false) ∧
    load_documents ⟨p, true, fs1 ++ f :: fs2⟩ = load_documents ⟨p, true, fs1 ++ fs2⟩ ∧
    load_documents ⟨p, true, []⟩ = Except.ok [] := by
  refine ⟨?_, ?_, rfl⟩
  · cases hd : d.isDir <;> simp [load_documents, hd]
  · simp only [load_documents, if_true]
    exact congrArg Except.ok (loadAux_skip p f hskip fs1 fs2 0)

theorem C7_load_documents_errors_witness :
    skippedFile ⟨"broken.pdf", Except.error "parse error", 10, none⟩ = true ∧
    load_documents ⟨"/data", true,
        [⟨"a.txt", Except.ok "hello", 5, some 0⟩,
          ⟨"broken.pdf", Except.error "parse error", 10, none⟩]⟩
      = load_documents ⟨"/data", true, [⟨"a.txt", Except.ok "hello", 5, some 0⟩]⟩ :=
  ⟨by decide,
    (C7_load_documents_errors ⟨"/data", true, []⟩ "/data"
      [⟨"a.txt", Except.ok "hello", 5, some 0⟩] []
      ⟨"broken.pdf", Except.error "parse error", 10, none⟩ (by decide)).2.1⟩

/-! ### LLM state lemmas -/

theorem create_llm_client_error_ne_empty (c : LLMConfig) (e : String)
    (h : create_llm_client c = .error e) : e ≠ "" := by
  obtain ⟨mode, base, model⟩ := c
  cases mode <;> simp only [create_llm_client] at h <;> split_ifs at h <;>
    simp only [Except.error.injEq, reduceCtorEq] at h <;>
    (rw [← h]; decide)

theorem create_base_url_missing (c : LLMConfig) (hb : truthy c.base_url = false) :
    createSucceeds c = false := by
  obtain ⟨mode, base, model⟩ := c
  simp only at hb
  cases mode <;> simp [createSucceeds, create_llm_client, hb]

theorem create_model_name_missing (c : LLMConfig) (hm : c.mode = LLMMode.ollama)
    (hmn : truthy c.model_name = false) : createSucceeds c = false := by
  obtain ⟨mode, base, model⟩ := c
  simp only at hm hmn
  subst hm
  by_cases hb : truthy base = false <;>
    simp [createSucceeds, create_llm_client, hb, hmn]

theorem refresh_client_snd (s : LLMStateModel) :
    (refresh_client s).2 = createSucceeds s.config := by
  cases h : create_llm_client s.config <;>
    simp [refresh_client, get_config, createSucceeds, h, refresh_install_ok,
      refresh_install_err]

/-- **C5.** `set_config` stores the new config and clears both the
client and the error in its locked block; with `initialize_client=False`
that cleared state is final and the call returns `True`; with
`initialize_client=True` the return value is exactly whether synchronous
client construction from the new config succeeded (and the new config
remains stored either way). -/
theorem C5_set_config (s : LLMStateModel) (cfg : LLMConfig) :
    set_config_locked s cfg = ⟨cfg, none, none⟩ ∧
    set_config s cfg false = (⟨cfg, none, none⟩, true) ∧
    (set_config s cfg true).2 = createSucceeds cfg ∧
    (set_config s cfg true).1.config = cfg := by
  refine ⟨rfl, rfl, ?_, ?_⟩ <;>
    (cases h : create_llm_client cfg with
      | ok cl =>
          simp [set_config, set_config_locked, refresh_client, get_config, createSucceeds,
            refresh_install_ok, h]
      | error e =>
          simp [set_config, set_config_locked, refresh_client, get_config, createSucceeds,
            refresh_install_err, h])

/-- **C6.** `refresh_client` is total (construction failures become the
stored error, never an exception): on success it installs the client and
clears the error, returning `True`; on failure it clears the client,
records the non-empty failure message, returns `False`, and the
subsequent `get_status` reports `client_initialized=False` with that
non-empty `last_error`; in particular a missing `base_url` (either
mode), or a missing `model_name` in ollama mode, makes it return
`False`. -/
theorem C6_refresh_client (s : LLMStateModel) :
    refresh_client s =
      (match create_llm_client s.config with
        | .ok cl => ({ s with client := some cl, error := none }, true)
        | .error e => ({ s with client := none, error := some e }, false)) ∧
    (createSucceeds s.config = false →
      (get_status (refresh_client s).1).client_initialized = false ∧
      ∃ e, (get_status (refresh_client s).1).last_error = some e ∧ e ≠ "") ∧
    (truthy s.config.base_url = false → (refresh_client s).2 = false) ∧
    (s.config.mode = LLMMode.ollama → truthy s.config.model_name = false →
      (refresh_client s).2 = false) := by
  refine ⟨?_, ?_, ?_, ?_⟩
  · cases h : create_llm_client s.config <;>
      simp [refresh_client, get_config, h, refresh_install_ok, refresh_install_err]
  · intro hfail
    cases h : create_llm_client s.config with
    | ok cl => simp [createSucceeds, h] at hfail
    | error e =>
        have hne : e ≠ "" := create_llm_client_error_ne_empty s.config e h
        constructor
        · simp [refresh_client, get_config, h, refresh_install_err, get_status]
        · exact ⟨e,
            by simp [refresh_client, get_config, h, refresh_install_err, get_status], hne⟩
  · intro hb
    rw [refresh_client_snd]
    exact create_base_url_missing s.config hb
  · intro hm hmn
    rw [refresh_client_snd]
    exact create_model_name_missing s.config hm hmn

theorem C6_refresh_client_witness :
    createSucceeds (⟨LLMMode.custom, none, none⟩ : LLMConfig) = false ∧
    ((get_status (refresh_client ⟨⟨LLMMode.custom, none, none⟩, none, none⟩).1).client_initialized
        = false ∧
      ∃ e, (get_status (refresh_client ⟨⟨LLMMode.custom, none, none⟩, none, none⟩).1).last_error
          = some e ∧ e ≠ "") ∧
    (refresh_client ⟨⟨LLMMode.custom, none, none⟩, none, none⟩).2 = false :=
  ⟨by decide,
    (C6_refresh_client ⟨⟨LLMMode.custom, none, none⟩, none, none⟩).2.1 (by decide),
    (C6_refresh_client ⟨⟨LLMMode.custom, none, none⟩, none, none⟩).2.2.1 (by decide)⟩

/-- **C2 (code bug).** The background executor does *not* read the LLM
State's current config: `_run_pipeline_job` calls `default_llm_config()`
(pipeline_routes.py line 61).  With an empty environment and a state
whose current config was set to a custom endpoint, the config the run
passes to `build_knowledge_base` is the freshly derived default, which
differs from what `LLMState.get_config` returns at that moment. -/
theorem C2_executor_ignores_llm_state :
    executor_llm_config ⟨none, none, none, none⟩
        ⟨⟨LLMMode.custom, some "http://example:8080", some "mymodel"⟩, none, none⟩
      = ⟨LLMMode.ollama, some "http://127.0.0.1:11434", none⟩ ∧
    get_config ⟨⟨LLMMode.custom, some "http://example:8080", some "mymodel"⟩, none, none⟩
      = ⟨LLMMode.custom, some "http://example:8080", some "mymodel"⟩ ∧
    executor_llm_config ⟨none, none, none, none⟩
        ⟨⟨LLMMode.custom, some "http://example:8080", some "mymodel"⟩, none, none⟩
      ≠ get_config ⟨⟨LLMMode.custom, some "http://example:8080", some "mymodel"⟩, none, none⟩ := by
  refine ⟨?_, rfl, ?_⟩ <;> decide

/-- **C9 (amended).** Each individual read and each mutation of the LLM
state is one atomic locked block, but `set_config` with initialization
and `refresh_client` span several lock acquisitions with client
construction outside the lock; consequently, when a
`set_config(newCfg, initialize_client=False)` runs between
`refresh_client`'s locked config read and its locked install, the final
state pairs the *new* config with the client built from the *old*
config — the stale install wins. -/
theorem C9_stale_client_race (s0 : LLMStateModel) (newCfg : LLMConfig) (cl : LLMClient)
    (h : create_llm_client (get_config s0) = .ok cl) :
    race_set_config_during_refresh s0 newCfg
      = ⟨newCfg, some cl, none⟩ := by
  simp [race_set_config_during_refresh, h, refresh_install_ok, set_config_locked]

theorem C9_stale_client_race_witness :
    race_set_config_during_refresh
        ⟨⟨LLMMode.ollama, some "http://old:11434", some "m1"⟩, none, none⟩
        ⟨LLMMode.custom, some "http://new:9999", none⟩
      = ⟨⟨LLMMode.custom, some "http://new:9999", none⟩,
          some ⟨ClientKind.ollama, "http://old:11434", some "m1"⟩, none⟩ :=
  C9_stale_client_race
    ⟨⟨LLMMode.ollama, some "http://old:11434", some "m1"⟩, none, none⟩
    ⟨LLMMode.custom, some "http://new:9999", none⟩
    ⟨ClientKind.ollama, "http://old:11434", some "m1"⟩ (by rfl)

/-- **C9 counterexample.** A concrete realizable interleaving in which a
client constructed from the older ollama config is installed after a
concurrent `set_config` already stored a different custom config — the
pair `status` can then observe never coexisted as intended, refuting the
claim that a single critical section per logical operation makes this
impossible. -/
theorem C9_counterexample :
    race_set_config_during_refresh
        ⟨⟨LLMMode.ollama, some "http://old:11434", some "m1"⟩, none, none⟩
        ⟨LLMMode.custom, some "http://new:9999", none⟩
      = ⟨⟨LLMMode.custom, some "http://new:9999", none⟩,
          some ⟨ClientKind.ollama, "http://old:11434", some "m1"⟩, none⟩ ∧
    (⟨LLMMode.ollama, some "http://old:11434", some "m1"⟩ : LLMConfig)
      ≠ ⟨LLMMode.custom, some "http://new:9999", none⟩ := by
  refine ⟨by decide, by decide⟩

/-! ### Pipeline job trace lemmas -/

theorem applyCallbacks_status :
    ∀ (us : List (String × ℚ × String)) (j : PipelineStatus),
      (applyCallbacks j us).map PipelineStatus.status
        = List.replicate us.length j.status := by
  intro us
  induction us with
  | nil => intro j; rfl
  | cons u us ih =>
      intro j
      simp only [applyCallbacks, List.map_cons, List.length_cons, List.replicate_succ]
      rw [ih (updateJobStatus j u)]
      rfl

theorem applyCallbacks_length :
    ∀ (us : List (String × ℚ × String)) (j : PipelineStatus),
      (applyCallbacks j us).length = us.length := by
  intro us
  induction us with
  | nil => intro j; rfl
  | cons u us ih =>
      intro j
      simp only [applyCallbacks, List.length_cons]
      rw [ih (updateJobStatus j u)]

theorem lastJob_applyCallbacks_progress :
    ∀ (us : List (String × ℚ × String)) (j : PipelineStatus),
      (lastJob j (applyCallbacks j us)).progress
        = (us.map (fun u => u.2.1)).getLastD j.progress := by
  intro us
  induction us with
  | nil => intro j; rfl
  | cons u us ih =>
      intro j
      simp only [applyCallbacks, List.map_cons, lastJob, List.getLastD_cons]
      exact ih (updateJobStatus j u)

theorem trace_core_chain :
    ∀ (us : List (String × ℚ × String)) (j fin : PipelineStatus),
      List.Chain' (· ≤ ·) (j.progress :: us.map (fun u => u.2.1)) →
      (lastJob j (applyCallbacks j us)).progress ≤ fin.progress →
      List.Chain' (· ≤ ·)
        (((j :: applyCallbacks j us) ++ [fin]).map PipelineStatus.progress) := by
  intro us
  induction us with
  | nil =>
      intro j fin _ hfin
      exact List.chain'_pair.mpr hfin
  | cons u us ih =>
      intro j fin h hfin
      have h' := List.chain'_cons.mp h
      have hfin' : (lastJob (updateJobStatus j u)
          (applyCallbacks (updateJobStatus j u) us)).progress ≤ fin.progress := by
        simpa only [applyCallbacks, lastJob, List.getLastD_cons] using hfin
      have hrec := ih (updateJobStatus j u) fin h'.2 hfin'
      simp only [applyCallbacks, List.cons_append, List.map_cons]
      exact List.chain'_cons.mpr ⟨h'.1, hrec⟩

theorem trace_with_prefix_chain (j0 j1 j2 j3 fin : PipelineStatus)
    (us : List (String × ℚ × String))
    (h01 : j0.progress ≤ j1.progress) (h12 : j1.progress ≤ j2.progress)
    (h23 : j2.progress ≤ j3.progress)
    (h : List.Chain' (· ≤ ·) (j3.progress :: us.map (fun u => u.2.1)))
    (hfin : (lastJob j3 (applyCallbacks j3 us)).progress ≤ fin.progress) :
    List.Chain' (· ≤ ·)
      ((j0 :: j1 :: j2 :: j3 :: (applyCallbacks j3 us ++ [fin])).map
        PipelineStatus.progress) := by
  simp only [List.map_cons]
  refine List.chain'_cons.mpr ⟨h01, ?_⟩
  refine List.chain'_cons.mpr ⟨h12, ?_⟩
  refine List.chain'_cons.mpr ⟨h23, ?_⟩
  exact trace_core_chain us j3 fin h hfin

theorem trace_with_prefix_status (j0 j1 j2 j3 fin : PipelineStatus)
    (us : List (String × ℚ × String)) :
    (j0 :: j1 :: j2 :: j3 :: (applyCallbacks j3 us ++ [fin])).map PipelineStatus.status
      = j0.status :: j1.status :: j2.status :: j3.status ::
          (List.replicate us.length j3.status ++ [fin.status]) := by
  simp [List.map_append, applyCallbacks_status us j3]

theorem pipelineCallbacks_progress_chain (ip method : String) (de : Bool) (nd nu : Nat) :
    List.Chain' (· ≤ ·)
      ((0.1 : ℚ) :: (pipelineCallbacks ip method de nd nu).map (fun u => u.2.1)) := by
  cases de
  · rw [show (pipelineCallbacks ip method false nd nu).map (fun u => u.2.1)
        = [0.1, 0.2, 0.25, 0.35, 0.5, 0.7, 0.85, 0.95, 0.99] from rfl]
    norm_num [List.chain'_cons, List.chain'_singleton]
  · rw [show (pipelineCallbacks ip method true nd nu).map (fun u => u.2.1)
        = [0.1, 0.15, 0.25, 0.35, 0.5, 0.7, 0.85, 0.95, 0.99] from rfl]
    norm_num [List.chain'_cons, List.chain'_singleton]

theorem pipelineCallbacks_last_progress (ip method : String) (de : Bool) (nd nu : Nat) :
    ((pipelineCallbacks ip method de nd nu).map (fun u => u.2.1)).getLastD 0.1
      = (0.99 : ℚ) := by
  cases de <;> rfl

theorem jobTrace_failStage_status (jid ip method msg : String) (t0 tf : ℚ)
    (k : Nat) (de : Bool) (nd nu : Nat) :
    (jobTrace jid ip method t0 tf (RunScenario.failStage k de nd nu msg)).map
        PipelineStatus.status
      = PipelineStatusEnum.pending ::
        (List.replicate (3 + min k 9) PipelineStatusEnum.running
          ++ [PipelineStatusEnum.failed]) := by
  simp only [jobTrace]
  rw [trace_with_prefix_status]
  have hlen : ((pipelineCallbacks ip method de nd nu).take k).length = min k 9 :=
    List.length_take k (pipelineCallbacks ip method de nd nu)
  rw [hlen]
  have hrep : List.replicate (3 + min k 9) PipelineStatusEnum.running
      = PipelineStatusEnum.running :: PipelineStatusEnum.running ::
        PipelineStatusEnum.running ::
          List.replicate (min k 9) PipelineStatusEnum.running := by
    have h3 : 3 + min k 9 = (min k 9) + 3 := by omega
    rw [h3]
    simp [List.replicate_succ]
  rw [hrep]
  rfl

theorem jobTrace_failStage_length (jid ip method msg : String) (t0 tf : ℚ)
    (k : Nat) (de : Bool) (nd nu : Nat) :
    (jobTrace jid ip method t0 tf (RunScenario.failStage k de nd nu msg)).length
      = 5 + min k 9 := by
  have hcb : (pipelineCallbacks ip method de nd nu).length = 9 := rfl
  simp [jobTrace, applyCallbacks_length, hcb]
  omega

/-- **C3.** Over every scenario of one background run — success, an
exception while initializing the LLM client, or an exception after any
number `k` of stage reports — the snapshots of the job's registry entry
have non-decreasing `progress`; the status sequence is exactly `pending`
(creation, before any work), then one or more `running` snapshots
(entered before any stage work, so `running` is never skipped), then a
single terminal `completed`/`failed` snapshot in last position (so a
terminal status is never changed afterwards and the machine never moves
backward); and on success the final snapshot has `progress = 1.0`,
`finished_at` set, and status `completed`. -/
theorem C3_job_monotonicity (jid ip method : String) (t0 tf : ℚ) (sc : RunScenario) :
    List.Chain' (· ≤ ·)
      ((jobTrace jid ip method t0 tf sc).map PipelineStatus.progress) ∧
    (jobTrace jid ip method t0 tf sc).map PipelineStatus.status
      = PipelineStatusEnum.pending ::
        (List.replicate (runningCount sc) PipelineStatusEnum.running
          ++ [finalStatus sc]) ∧
    0 < runningCount sc ∧
    (finalStatus sc = PipelineStatusEnum.completed ∨
      finalStatus sc = PipelineStatusEnum.failed) ∧
    (∀ de nd nu, sc = RunScenario.ok de nd nu →
      ((jobTrace jid ip method t0 tf sc).getLastD (initialJob jid t0)).status
          = PipelineStatusEnum.completed ∧
      ((jobTrace jid ip method t0 tf sc).getLastD (initialJob jid t0)).progress = 1 ∧
      ((jobTrace jid ip method t0 tf sc).getLastD (initialJob jid t0)).finished_at
          = some tf) := by
  cases sc with
  | ok de nd nu =>
      refine ⟨?_, ?_, by simp [runningCount], Or.inl rfl, ?_⟩
      · simp only [jobTrace]
        refine trace_with_prefix_chain _ _ _ _ _ _
          (show (0 : ℚ) ≤ 0.01 by norm_num)
          (show (0.01 : ℚ) ≤ 0.01 from le_refl _)
          (show (0.01 : ℚ) ≤ 0.1 by norm_num)
          (pipelineCallbacks_progress_chain ip method de nd nu) ?_
        rw [lastJob_applyCallbacks_progress]
        show ((pipelineCallbacks ip method de nd nu).map (fun u => u.2.1)).getLastD
          (0.1 : ℚ) ≤ (1 : ℚ)
        rw [pipelineCallbacks_last_progress]
        norm_num
      · rfl
      · intro de' nd' nu' _
        exact ⟨rfl, rfl, rfl⟩
  | failInit msg =>
      refine ⟨?_, rfl, by simp [runningCount], Or.inr rfl, ?_⟩
      · have h : (jobTrace jid ip method t0 tf (RunScenario.failInit msg)).map
            PipelineStatus.progress = [0, 0.01, 0.01, 0.01] := rfl
        rw [h]
        norm_num [List.chain'_cons, List.chain'_singleton]
      · intro de' nd' nu' heq
        cases heq
  | failStage k de nd nu msg =>
      refine ⟨?_, ?_, by simp [runningCount], Or.inr rfl, ?_⟩
      · simp only [jobTrace]
        refine trace_with_prefix_chain _ _ _ _ _ _
          (show (0 : ℚ) ≤ 0.01 by norm_num)
          (show (0.01 : ℚ) ≤ 0.01 from le_refl _)
          (show (0.01 : ℚ) ≤ 0.1 by norm_num)
          ?_ (le_refl _)
        have hch := (pipelineCallbacks_progress_chain ip method de nd nu).take (k + 1)
        simp only [List.take_succ_cons] at hch
        show List.Chain' (· ≤ ·) ((0.1 : ℚ) ::
          ((pipelineCallbacks ip method de nd nu).take k).map (fun u => u.2.1))
        rw [List.map_take]
        exact hch
      · exact jobTrace_failStage_status jid ip method msg t0 tf k de nd nu
      · intro de' nd' nu' heq
        cases heq

theorem C3_job_monotonicity_witness :
    ((jobTrace "job-1" "/in" "standard" 0 7 (RunScenario.ok false 1 2)).getLastD
        (initialJob "job-1" 0)).status = PipelineStatusEnum.completed ∧
    ((jobTrace "job-1" "/in" "standard" 0 7 (RunScenario.ok false 1 2)).getLastD
        (initialJob "job-1" 0)).progress = 1 :=
  ⟨((C3_job_monotonicity "job-1" "/in" "standard" 0 7
      (RunScenario.ok false 1 2)).2.2.2.2 false 1 2 rfl).1,
   ((C3_job_monotonicity "job-1" "/in" "standard" 0 7
      (RunScenario.ok false 1 2)).2.2.2.2 false 1 2 rfl).2.1⟩

/-- **C4 (amended).** An exception during a stage — whether while
initializing the LLM client or after `k` stage reports — makes the final
snapshot `failed` with `finished_at` set and the job's `message` equal to
`"Pipeline failed: "` followed by the exception's message (the f-string
of pipeline_routes.py line 92), not the exception's message verbatim; no
snapshot follows the terminal one and the trace contains exactly the
first `min k 9` stage reports, so no further stage executes and no stage
is retried. -/
theorem C4_stage_failure (jid ip method msg : String) (t0 tf : ℚ)
    (k : Nat) (de : Bool) (nd nu : Nat) :
    ((jobTrace jid ip method t0 tf (RunScenario.failInit msg)).getLastD
        (initialJob jid t0)).status = PipelineStatusEnum.failed ∧
    ((jobTrace jid ip method t0 tf (RunScenario.failInit msg)).getLastD
        (initialJob jid t0)).message = some ("Pipeline failed: " ++ msg) ∧
    ((jobTrace jid ip method t0 tf (RunScenario.failInit msg)).getLastD
        (initialJob jid t0)).finished_at = some tf ∧
    (jobTrace jid ip method t0 tf (RunScenario.failInit msg)).length = 4 ∧
    ((jobTrace jid ip method t0 tf (RunScenario.failStage k de nd nu msg)).getLastD
        (initialJob jid t0)).status = PipelineStatusEnum.failed ∧
    ((jobTrace jid ip method t0 tf (RunScenario.failStage k de nd nu msg)).getLastD
        (initialJob jid t0)).message = some ("Pipeline failed: " ++ msg) ∧
    ((jobTrace jid ip method t0 tf (RunScenario.failStage k de nd nu msg)).getLastD
        (initialJob jid t0)).finished_at = some tf ∧
    (jobTrace jid ip method t0 tf (RunScenario.failStage k de nd nu msg)).length
      = 5 + min k 9 ∧
    (jobTrace jid ip method t0 tf (RunScenario.failStage k de nd nu msg)).map
        PipelineStatus.status
      = PipelineStatusEnum.pending ::
        (List.replicate (3 + min k 9) PipelineStatusEnum.running
          ++ [PipelineStatusEnum.failed]) := by
  refine ⟨rfl, rfl, rfl, rfl, ?_, ?_, ?_,
    jobTrace_failStage_length jid ip method msg t0 tf k de nd nu,
    jobTrace_failStage_status jid ip method msg t0 tf k de nd nu⟩
  · simp only [jobTrace, List.getLastD_cons, List.getLastD_concat]
    rfl
  · simp only [jobTrace, List.getLastD_cons, List.getLastD_concat]
    rfl
  · simp only [jobTrace, List.getLastD_cons, List.getLastD_concat]
    rfl

/-- **C4 counterexample.** The claim as stated requires the failed job's
`message` to equal the exception's message verbatim; for the exception
message `"boom"`, the recorded message is `"Pipeline failed: boom"`,
which differs. -/
theorem C4_counterexample :
    ((jobTrace "job-1" "/in" "standard" 0 5 (RunScenario.failInit "boom")).getLastD
        (initialJob "job-1" 0)).status = PipelineStatusEnum.failed ∧
    ((jobTrace "job-1" "/in" "standard" 0 5 (RunScenario.failInit "boom")).getLastD
        (initialJob "job-1" 0)).message = some "Pipeline failed: boom" ∧
    ((jobTrace "job-1" "/in" "standard" 0 5 (RunScenario.failInit "boom")).getLastD
        (initialJob "job-1" 0)).message ≠ some "boom" := by
  refine ⟨rfl, rfl, by decide⟩

end KbPipeline
